import Mathlib

/-! BufferMap (traffic_manager/source/include/BufferMap.h)

A shallow embedding of the class template `traffic_manager::BufferMap<K, D>` and of the part
of `std::map<K, D>` that it uses (`find`, `end`, `insert`, `at`), followed by theorems about
its three member functions `put`, `get` and `contains` in sequential execution.

Modelling decisions:

* `std::map<K, D>` is a sequence of `(key, data)` pairs kept in strictly increasing key order;
  it is embedded as a `List (K × D)`.  The functions do not require the list to be ordered;
  that every state a `BufferMap` can be in is ordered is a theorem (`Reachable.wellFormed`).
* The comparator `std::less<K>` is a linear order on `K`.
* `NULL` is a designated element of `K` and of `D` (class `HasNull`).
* A member function is a function from the object's state to an outcome (a returned value or
  a thrown exception) paired with the object's state afterwards, since the object outlives an
  exception thrown by one of its member functions.
* `put_mutex` is acquired by the `std::lock_guard` inside `put` and released when its scope is
  left, so in sequential execution it is unlocked before and after every call; it is not part
  of the state here.  What a call of `put` does to it is recorded by `put_steps`, which lists
  the statements the call executes.
-/

set_option linter.unusedSectionVars false

namespace traffic_manager

/-- Types whose values can be compared with the constant NULL, as `key == NULL` and
`data == NULL` in `put` require of `K` and `D`. -/
class HasNull (α : Type) where
  /-- The value that `NULL` converts to at this type. -/
  NULL : α

/-- For an integer key or data type `NULL` is the integer zero. -/
instance instHasNullNat : HasNull Nat := ⟨0⟩

/-- What the member functions of `BufferMap` can throw. -/
inductive Exception where
  /-- A string literal thrown as is: `throw "Key or Data is Null!";` in `put`. -/
  | c_string (what : String)
  /-- The exception `std::out_of_range`, thrown by `std::map::at` in `get`. -/
  | out_of_range
  deriving DecidableEq, Repr

/-- Outcomes of calls can be compared, so that a call can be evaluated on a concrete input. -/
instance instDecidableEqExcept {ε α : Type} [DecidableEq ε] [DecidableEq α] :
    DecidableEq (Except ε α)
  | .ok a, .ok b => if h : a = b then isTrue (by rw [h]) else isFalse (fun h2 => h (by cases h2; rfl))
  | .error a, .error b =>
    if h : a = b then isTrue (by rw [h]) else isFalse (fun h2 => h (by cases h2; rfl))
  | .ok _, .error _ => isFalse (fun h => by cases h)
  | .error _, .ok _ => isFalse (fun h => by cases h)

/-! ## The part of `std::map` used by `BufferMap` -/

namespace StdMap

variable {K D : Type} [LinearOrder K]

/-- The call `m.find(key)`: the stored element whose key is equivalent to `key`, or `none`
for the iterator `m.end()`. -/
def find : List (K × D) → K → Option (K × D)
  | [], _ => none
  | e :: es, key => if e.1 = key then some e else find es key

/-- The call `m.insert(p)`: the pair is put at its place in the key order, unless an element
with an equivalent key is met there, in which case nothing is inserted. -/
def insert : List (K × D) → K × D → List (K × D)
  | [], p => [p]
  | e :: es, p =>
    if p.1 < e.1 then p :: e :: es
    else if e.1 < p.1 then e :: insert es p
    else e :: es

/-- The call `m.at(key)`: the data mapped to `key`, or `std::out_of_range` when there is no
such element. -/
def map_at (m : List (K × D)) (key : K) : Except Exception D :=
  match find m key with
  | some e => .ok e.2
  | none => .error .out_of_range

end StdMap

/-! ## The class `BufferMap` -/

/-- The state of a `BufferMap<K, D>` object: its member `data_map`. -/
structure BufferMap (K D : Type) where
  /-- The member `std::map<K, D> data_map`, in key order. -/
  data_map : List (K × D)
  deriving DecidableEq, Repr

namespace BufferMap

variable {K D : Type} [LinearOrder K] [DecidableEq D] [HasNull K] [HasNull D]

/-- The constructor `BufferMap() {}`: `data_map` is default-constructed, hence empty. -/
def new : BufferMap K D := ⟨[]⟩

/-- The member function `void put(K key, D data)`. -/
def put (key : K) (data : D) (self : BufferMap K D) :
    Except Exception Unit × BufferMap K D :=
  if key = HasNull.NULL ∨ data = HasNull.NULL then
    (.error (.c_string "Key or Data is Null!"), self)
  else
    if StdMap.find self.data_map key = none then
      -- std::lock_guard<std::mutex> lock (put_mutex);
      if StdMap.find self.data_map key = none then
        (.ok (), { self with data_map := StdMap.insert self.data_map (key, data) })
      else
        (.ok (), self)
    else
      (.ok (), self)

/-- The member function `D get(K key)`. -/
def get (key : K) (self : BufferMap K D) : Except Exception D × BufferMap K D :=
  match StdMap.map_at self.data_map key with
  | .ok value => (.ok value, self)
  | .error e => (.error e, self)

/-- The member function `bool contains(K key)`. -/
def contains (key : K) (self : BufferMap K D) : Except Exception Bool × BufferMap K D :=
  (.ok (decide (StdMap.find self.data_map key ≠ none)), self)

/-- The statements of `put` that a call executes, each with the result of its test. -/
inductive Step where
  /-- The test `key == NULL or data == NULL`; when it holds, the `throw` follows. -/
  | null_check (is_null : Bool)
  /-- The first test `data_map.find(key) == data_map.end()`, made without the mutex. -/
  | find_unlocked (absent : Bool)
  /-- The construction of the `std::lock_guard`, which calls `put_mutex.lock()`. -/
  | lock
  /-- The second test `data_map.find(key) == data_map.end()`, made under the mutex. -/
  | find_locked (absent : Bool)
  /-- The call `data_map.insert(std::pair<K, D>(key, data))`. -/
  | insert
  /-- The end of the block of the `std::lock_guard`, whose destructor calls
  `put_mutex.unlock()`. -/
  | unlock
  deriving DecidableEq, Repr

/-- Whether `put_mutex` is held after a statement, given whether it was held before. -/
def Step.held : Bool → Step → Bool
  | _, .lock => true
  | _, .unlock => false
  | before, _ => before

/-- Whether `put_mutex` is held after the statements `steps`, starting with it not held. -/
def heldAfter (steps : List Step) : Bool :=
  steps.foldl Step.held false

/-- The member function `void put(K key, D data)` once more, statement by statement: the
statements executed, the outcome, and the state afterwards. -/
def put_steps (key : K) (data : D) (self : BufferMap K D) :
    List Step × Except Exception Unit × BufferMap K D :=
  if key = HasNull.NULL ∨ data = HasNull.NULL then
    ([.null_check true], .error (.c_string "Key or Data is Null!"), self)
  else
    if StdMap.find self.data_map key = none then
      if StdMap.find self.data_map key = none then
        ([.null_check false, .find_unlocked true, .lock, .find_locked true, .insert, .unlock],
          .ok (), { self with data_map := StdMap.insert self.data_map (key, data) })
      else
        ([.null_check false, .find_unlocked true, .lock, .find_locked false, .unlock],
          .ok (), self)
    else
      ([.null_check false, .find_unlocked false], .ok (), self)

/-- The single-check reference for `put` on a non-NULL key and data: if the key is absent
insert the pair, otherwise do nothing. -/
def put_insert_if_absent (key : K) (data : D) (self : BufferMap K D) :
    Except Exception Unit × BufferMap K D :=
  if StdMap.find self.data_map key = none then
    (.ok (), { self with data_map := StdMap.insert self.data_map (key, data) })
  else
    (.ok (), self)

end BufferMap

/-! ## Sequences of calls -/

/-- One call of a member function on a `BufferMap` object. -/
inductive Op (K D : Type) where
  | put (key : K) (data : D)
  | get (key : K)
  | contains (key : K)
  deriving Repr

section Runs

variable {K D : Type} [LinearOrder K] [DecidableEq D] [HasNull K] [HasNull D]

/-- The state of the object after one call, whether the call returned or threw. -/
def Op.exec : Op K D → BufferMap K D → BufferMap K D
  | .put key data, s => (BufferMap.put key data s).2
  | .get key, s => (BufferMap.get key s).2
  | .contains key, s => (BufferMap.contains key s).2

/-- The number of times one call acquires `put_mutex`: `put` does so where its statements
say, `get` and `contains` have no statement that names `put_mutex`. -/
def Op.acquisitions : Op K D → BufferMap K D → Nat
  | .put key data, s => (BufferMap.put_steps key data s).1.count .lock
  | .get _, _ => 0
  | .contains _, _ => 0

/-- The state of the object after a finite sequence of calls, made one after the other. -/
def run (ops : List (Op K D)) (s : BufferMap K D) : BufferMap K D :=
  ops.foldl (fun s op => op.exec s) s

/-- The state after one `put` call per pair of the list, in the order of the list. -/
def putAll (l : List (K × D)) (s : BufferMap K D) : BufferMap K D :=
  l.foldl (fun s p => (BufferMap.put p.1 p.2 s).2) s

/-- The key `key` was the key of some `put` call of the sequence `l` that returned without
throwing, the sequence being applied to a newly constructed object. -/
def InsertedBy (l : List (K × D)) (key : K) : Prop :=
  ∃ pre p post, l = pre ++ p :: post ∧ p.1 = key ∧
    (BufferMap.put p.1 p.2 (putAll pre BufferMap.new)).1 = .ok ()

/-- The states a `BufferMap` object can be in: those that a finite sequence of calls
produces from a newly constructed object. -/
def Reachable (s : BufferMap K D) : Prop :=
  ∃ ops : List (Op K D), s = run ops BufferMap.new

/-- The properties of `data_map` that hold in every reachable state: keys strictly increase
along the sequence, and neither a key nor a data value is `NULL`. -/
def WellFormed (s : BufferMap K D) : Prop :=
  s.data_map.Pairwise (fun a b => a.1 < b.1) ∧
    ∀ e ∈ s.data_map, e.1 ≠ HasNull.NULL ∧ e.2 ≠ HasNull.NULL

end Runs

/-! ## Tests on concrete inputs -/

example : (BufferMap.put 3 7 (BufferMap.new : BufferMap Nat Nat)).2.data_map = [(3, 7)] := by decide
example : (BufferMap.put 0 7 (BufferMap.new : BufferMap Nat Nat)).1
    = .error (.c_string "Key or Data is Null!") := by decide
example : putAll [(3, 7), (1, 2), (3, 9), (2, 0), (5, 1)] (BufferMap.new : BufferMap Nat Nat)
    = ⟨[(1, 2), (3, 7), (5, 1)]⟩ := by decide
example : (BufferMap.get 3 (⟨[(1, 2), (3, 7), (5, 1)]⟩ : BufferMap Nat Nat)).1 = .ok 7 := by decide
example : (BufferMap.get 4 (⟨[(1, 2), (3, 7), (5, 1)]⟩ : BufferMap Nat Nat)).1
    = .error .out_of_range := by decide

example : BufferMap.put_steps 3 7 (⟨[(1, 2)]⟩ : BufferMap Nat Nat)
    = ([.null_check false, .find_unlocked true, .lock, .find_locked true, .insert, .unlock],
      .ok (), ⟨[(1, 2), (3, 7)]⟩) := by decide
example : BufferMap.put_steps 1 7 (⟨[(1, 2)]⟩ : BufferMap Nat Nat)
    = ([.null_check false, .find_unlocked false], .ok (), ⟨[(1, 2)]⟩) := by decide
example : (Op.put 3 7 : Op Nat Nat).acquisitions ⟨[(1, 2)]⟩ = 1 := by decide
example : BufferMap.put_insert_if_absent 3 7 (⟨[(1, 2)]⟩ : BufferMap Nat Nat)
    = (.ok (), ⟨[(1, 2), (3, 7)]⟩) := by decide

/-! ## Lemmas on the model of `std::map` -/

namespace StdMap

variable {K D : Type} [LinearOrder K]

theorem find_eq_none_iff (m : List (K × D)) (key : K) :
    find m key = none ↔ ∀ e ∈ m, e.1 ≠ key := by
  induction m with
  | nil => simp [find]
  | cons e es ih =>
    by_cases h : e.1 = key
    · simp [find, h]
    · simp [find, h, ih]

theorem find_eq_some (m : List (K × D)) (key : K) (e : K × D) (h : find m key = some e) :
    e ∈ m ∧ e.1 = key := by
  induction m with
  | nil => simp [find] at h
  | cons x xs ih =>
    by_cases hx : x.1 = key
    · simp [find, hx] at h
      subst h
      exact ⟨List.mem_cons_self _ _, hx⟩
    · simp [find, hx] at h
      exact ⟨List.mem_cons_of_mem _ (ih h).1, (ih h).2⟩

theorem find_insert_self (m : List (K × D)) (key : K) (data : D) (h : find m key = none) :
    find (insert m (key, data)) key = some (key, data) := by
  induction m with
  | nil => simp [insert, find]
  | cons e es ih =>
    have hne : e.1 ≠ key := (find_eq_none_iff _ _).1 h e (List.mem_cons_self _ _)
    have hes : find es key = none := by
      simpa [find, hne] using h
    by_cases h1 : key < e.1
    · simp [insert, h1, find]
    · by_cases h2 : e.1 < key
      · simp [insert, h1, h2, find, hne, ih hes]
      · exact absurd (le_antisymm (not_lt.1 h1) (not_lt.1 h2)) hne

theorem find_insert_of_ne (m : List (K × D)) (p : K × D) (key : K) (h : key ≠ p.1) :
    find (insert m p) key = find m key := by
  induction m with
  | nil => simp [insert, find, Ne.symm h]
  | cons e es ih =>
    by_cases h1 : p.1 < e.1
    · simp [insert, h1, find, Ne.symm h]
    · by_cases h2 : e.1 < p.1
      · by_cases h3 : e.1 = key
        · rw [insert, if_neg h1, if_pos h2]
          simp [find, h3]
        · rw [insert, if_neg h1, if_pos h2]
          simp [find, h3, ih]
      · simp [insert, h1, h2]

theorem mem_insert (m : List (K × D)) (p x : K × D) (h : x ∈ insert m p) : x = p ∨ x ∈ m := by
  induction m with
  | nil => simpa [insert] using h
  | cons e es ih =>
    by_cases h1 : p.1 < e.1
    · simpa [insert, h1] using h
    · by_cases h2 : e.1 < p.1
      · simp only [insert, h1, h2, if_true, if_false, List.mem_cons] at h
        rcases h with h | h
        · exact Or.inr (h ▸ List.mem_cons_self _ _)
        · rcases ih h with h | h
          · exact Or.inl h
          · exact Or.inr (List.mem_cons_of_mem _ h)
      · simp only [insert, h1, h2, if_false] at h
        exact Or.inr h

theorem insert_perm (m : List (K × D)) (key : K) (data : D) (h : find m key = none) :
    (insert m (key, data)).Perm ((key, data) :: m) := by
  induction m with
  | nil => simp [insert]
  | cons e es ih =>
    have hne : e.1 ≠ key := (find_eq_none_iff _ _).1 h e (List.mem_cons_self _ _)
    have hes : find es key = none := by
      simpa [find, hne] using h
    by_cases h1 : key < e.1
    · simp [insert, h1]
    · by_cases h2 : e.1 < key
      · simp only [insert, h1, h2, if_true, if_false]
        exact ((ih hes).cons e).trans (List.Perm.swap _ _ _)
      · exact absurd (le_antisymm (not_lt.1 h1) (not_lt.1 h2)) hne

theorem insert_pairwise (m : List (K × D)) (p : K × D)
    (h : m.Pairwise (fun a b => a.1 < b.1)) :
    (insert m p).Pairwise (fun a b => a.1 < b.1) := by
  induction m with
  | nil => simp [insert]
  | cons e es ih =>
    rw [List.pairwise_cons] at h
    by_cases h1 : p.1 < e.1
    · simp only [insert, h1, if_true]
      refine List.pairwise_cons.2 ⟨?_, List.pairwise_cons.2 h⟩
      intro x hx
      rcases List.mem_cons.1 hx with hx | hx
      · exact hx ▸ h1
      · exact lt_trans h1 (h.1 x hx)
    · by_cases h2 : e.1 < p.1
      · simp only [insert, h1, h2, if_true, if_false]
        refine List.pairwise_cons.2 ⟨?_, ih h.2⟩
        intro x hx
        rcases mem_insert es p x hx with hx | hx
        · exact hx ▸ h2
        · exact h.1 x hx
      · simp only [insert, h1, h2, if_false]
        exact List.pairwise_cons.2 h

end StdMap

/-! ## Lemmas on the member functions -/

section Lemmas

variable {K D : Type} [LinearOrder K] [DecidableEq D] [HasNull K] [HasNull D]

theorem put_of_null (key : K) (data : D) (s : BufferMap K D)
    (h : key = HasNull.NULL ∨ data = HasNull.NULL) :
    BufferMap.put key data s = (.error (.c_string "Key or Data is Null!"), s) := by
  simp only [BufferMap.put, if_pos h]

theorem put_of_present (key : K) (data : D) (s : BufferMap K D)
    (h : ¬ (key = HasNull.NULL ∨ data = HasNull.NULL))
    (hp : StdMap.find s.data_map key ≠ none) :
    BufferMap.put key data s = (.ok (), s) := by
  simp only [BufferMap.put, if_neg h, if_neg hp]

theorem put_of_absent (key : K) (data : D) (s : BufferMap K D)
    (h : ¬ (key = HasNull.NULL ∨ data = HasNull.NULL))
    (ha : StdMap.find s.data_map key = none) :
    BufferMap.put key data s = (.ok (), ⟨StdMap.insert s.data_map (key, data)⟩) := by
  simp only [BufferMap.put, if_neg h, if_pos ha]

theorem contains_true_iff (key : K) (s : BufferMap K D) :
    (BufferMap.contains key s).1 = .ok true ↔ StdMap.find s.data_map key ≠ none := by
  simp [BufferMap.contains]

theorem contains_false_iff (key : K) (s : BufferMap K D) :
    (BufferMap.contains key s).1 = .ok false ↔ StdMap.find s.data_map key = none := by
  simp [BufferMap.contains]

theorem get_of_find_some (key : K) (s : BufferMap K D) (e : K × D)
    (h : StdMap.find s.data_map key = some e) :
    BufferMap.get key s = (.ok e.2, s) := by
  simp [BufferMap.get, StdMap.map_at, h]

theorem get_of_find_none (key : K) (s : BufferMap K D)
    (h : StdMap.find s.data_map key = none) :
    BufferMap.get key s = (.error .out_of_range, s) := by
  simp [BufferMap.get, StdMap.map_at, h]

theorem get_ok_iff (key : K) (s : BufferMap K D) (v : D) :
    (BufferMap.get key s).1 = .ok v ↔ ∃ e, StdMap.find s.data_map key = some e ∧ e.2 = v := by
  cases h : StdMap.find s.data_map key with
  | none => simp [get_of_find_none key s h]
  | some e => simp [get_of_find_some key s e h]

/-- A call of `put` leaves the lookup of every key other than its own as it was. -/
theorem find_put_of_ne (key key2 : K) (data : D) (s : BufferMap K D) (h : key2 ≠ key) :
    StdMap.find (BufferMap.put key data s).2.data_map key2 = StdMap.find s.data_map key2 := by
  by_cases hn : key = HasNull.NULL ∨ data = HasNull.NULL
  · rw [put_of_null key data s hn]
  · by_cases hp : StdMap.find s.data_map key = none
    · rw [put_of_absent key data s hn hp]
      exact StdMap.find_insert_of_ne s.data_map (key, data) key2 h
    · rw [put_of_present key data s hn hp]

/-- A call of `put` leaves the lookup of every stored key as it was. -/
theorem find_put_of_some (key key2 : K) (data : D) (s : BufferMap K D) (e : K × D)
    (h : StdMap.find s.data_map key2 = some e) :
    StdMap.find (BufferMap.put key data s).2.data_map key2 = some e := by
  by_cases hk : key2 = key
  · subst hk
    by_cases hn : key2 = HasNull.NULL ∨ data = HasNull.NULL
    · rw [put_of_null key2 data s hn]; exact h
    · rw [put_of_present key2 data s hn (by simp [h])]; exact h
  · rw [find_put_of_ne key key2 data s hk]; exact h

theorem find_exec_of_some (op : Op K D) (key2 : K) (s : BufferMap K D) (e : K × D)
    (h : StdMap.find s.data_map key2 = some e) :
    StdMap.find (op.exec s).data_map key2 = some e := by
  cases op with
  | put key data => exact find_put_of_some key key2 data s e h
  | get key =>
    have : (BufferMap.get key s).2 = s := by
      unfold BufferMap.get; split <;> rfl
    simp only [Op.exec, this, h]
  | contains key => simpa [Op.exec, BufferMap.contains] using h

theorem find_run_of_some (ops : List (Op K D)) (key2 : K) (s : BufferMap K D) (e : K × D)
    (h : StdMap.find s.data_map key2 = some e) :
    StdMap.find (run ops s).data_map key2 = some e := by
  induction ops generalizing s with
  | nil => exact h
  | cons op ops ih => exact ih (op.exec s) (find_exec_of_some op key2 s e h)

theorem wellFormed_new : WellFormed (BufferMap.new : BufferMap K D) := by
  simp [WellFormed, BufferMap.new]

theorem wellFormed_put (key : K) (data : D) (s : BufferMap K D) (h : WellFormed s) :
    WellFormed (BufferMap.put key data s).2 := by
  by_cases hn : key = HasNull.NULL ∨ data = HasNull.NULL
  · rw [put_of_null key data s hn]; exact h
  · by_cases hp : StdMap.find s.data_map key = none
    · rw [put_of_absent key data s hn hp]
      refine ⟨StdMap.insert_pairwise _ _ h.1, ?_⟩
      intro e he
      rcases StdMap.mem_insert _ _ _ he with he | he
      · subst he
        exact ⟨fun hk => hn (Or.inl hk), fun hd => hn (Or.inr hd)⟩
      · exact h.2 e he
    · rw [put_of_present key data s hn hp]; exact h

theorem wellFormed_exec (op : Op K D) (s : BufferMap K D) (h : WellFormed s) :
    WellFormed (op.exec s) := by
  cases op with
  | put key data => exact wellFormed_put key data s h
  | get key =>
    have : (BufferMap.get key s).2 = s := by
      unfold BufferMap.get; split <;> rfl
    simpa only [Op.exec, this] using h
  | contains key => simpa [Op.exec, BufferMap.contains] using h

theorem wellFormed_run (ops : List (Op K D)) (s : BufferMap K D) (h : WellFormed s) :
    WellFormed (run ops s) := by
  induction ops generalizing s with
  | nil => exact h
  | cons op ops ih => exact ih (op.exec s) (wellFormed_exec op s h)

/-- Every state a `BufferMap` object can be in has its keys in strictly increasing order
and stores neither a `NULL` key nor a `NULL` data value. -/
theorem Reachable.wellFormed {s : BufferMap K D} (h : Reachable s) : WellFormed s := by
  obtain ⟨ops, rfl⟩ := h
  exact wellFormed_run ops _ wellFormed_new

/-- In a well-formed state the key `NULL` is not stored. -/
theorem WellFormed.find_null {s : BufferMap K D} (h : WellFormed s) :
    StdMap.find s.data_map (HasNull.NULL : K) = none := by
  rw [StdMap.find_eq_none_iff]
  intro e he
  exact (h.2 e he).1

theorem put_ok_iff (key : K) (data : D) (s : BufferMap K D) :
    (BufferMap.put key data s).1 = .ok () ↔ key ≠ HasNull.NULL ∧ data ≠ HasNull.NULL := by
  by_cases hn : key = HasNull.NULL ∨ data = HasNull.NULL
  · rw [put_of_null key data s hn]
    simp only [reduceCtorEq, false_iff, not_and_or, not_not]
    simpa using hn
  · have h2 := hn
    rw [not_or] at h2
    by_cases hp : StdMap.find s.data_map key = none
    · rw [put_of_absent key data s hn hp]; simpa using h2
    · rw [put_of_present key data s hn hp]; simpa using h2

theorem find_put_ne_none_iff (p : K × D) (key : K) (s : BufferMap K D) :
    StdMap.find (BufferMap.put p.1 p.2 s).2.data_map key ≠ none ↔
      StdMap.find s.data_map key ≠ none ∨
        (p.1 = key ∧ p.1 ≠ HasNull.NULL ∧ p.2 ≠ HasNull.NULL) := by
  by_cases hk : key = p.1
  · subst hk
    by_cases hn : p.1 = HasNull.NULL ∨ p.2 = HasNull.NULL
    · rw [put_of_null p.1 p.2 s hn]
      have : ¬ (p.1 ≠ HasNull.NULL ∧ p.2 ≠ HasNull.NULL) := by
        rw [not_and_or, not_not, not_not]; exact hn
      simp [this]
    · have h2 := hn
      rw [not_or] at h2
      by_cases hp : StdMap.find s.data_map p.1 = none
      · rw [put_of_absent p.1 p.2 s hn hp]
        simp [StdMap.find_insert_self s.data_map p.1 p.2 hp, h2.1, h2.2]
      · rw [put_of_present p.1 p.2 s hn hp]
        simp [hp]
  · rw [find_put_of_ne p.1 key p.2 s hk]
    simp [Ne.symm hk]

theorem find_putAll_ne_none_iff (l : List (K × D)) (key : K) (s : BufferMap K D) :
    StdMap.find (putAll l s).data_map key ≠ none ↔
      StdMap.find s.data_map key ≠ none ∨
        ∃ p ∈ l, p.1 = key ∧ p.1 ≠ HasNull.NULL ∧ p.2 ≠ HasNull.NULL := by
  induction l generalizing s with
  | nil => simp [putAll]
  | cons p l ih =>
    have : putAll (p :: l) s = putAll l (BufferMap.put p.1 p.2 s).2 := rfl
    rw [this, ih, find_put_ne_none_iff]
    simp only [List.mem_cons, exists_eq_or_imp, or_assoc]

theorem insertedBy_iff (l : List (K × D)) (key : K) :
    InsertedBy l key ↔ ∃ p ∈ l, p.1 = key ∧ p.1 ≠ HasNull.NULL ∧ p.2 ≠ HasNull.NULL := by
  constructor
  · rintro ⟨pre, p, post, rfl, hk, hok⟩
    exact ⟨p, by simp, hk, (put_ok_iff _ _ _).1 hok⟩
  · rintro ⟨p, hp, hk, hn⟩
    obtain ⟨pre, post, rfl⟩ := List.append_of_mem hp
    exact ⟨pre, p, post, rfl, hk, (put_ok_iff _ _ _).2 hn⟩

theorem get_state (key : K) (s : BufferMap K D) : (BufferMap.get key s).2 = s := by
  unfold BufferMap.get; split <;> rfl

theorem get_error (key : K) (s : BufferMap K D) (e : Exception)
    (h : (BufferMap.get key s).1 = .error e) : e = .out_of_range := by
  cases hf : StdMap.find s.data_map key with
  | none =>
    rw [get_of_find_none key s hf] at h
    exact (Except.error.inj h).symm
  | some x =>
    rw [get_of_find_some key s x hf] at h
    cases h

theorem wellFormed_putAll (l : List (K × D)) (s : BufferMap K D) (h : WellFormed s) :
    WellFormed (putAll l s) := by
  induction l generalizing s with
  | nil => exact h
  | cons p l ih => exact ih (BufferMap.put p.1 p.2 s).2 (wellFormed_put p.1 p.2 s h)

/-- One `put` per pair, for pairs with non-NULL components and pairwise distinct keys that
are all absent at the start, stores exactly the pairs of the list next to what was stored. -/
theorem putAll_perm (l : List (K × D)) (s : BufferMap K D)
    (hnd : (l.map Prod.fst).Nodup)
    (hnn : ∀ p ∈ l, p.1 ≠ HasNull.NULL ∧ p.2 ≠ HasNull.NULL)
    (habs : ∀ p ∈ l, StdMap.find s.data_map p.1 = none) :
    (putAll l s).data_map.Perm (l ++ s.data_map) := by
  induction l generalizing s with
  | nil => exact List.Perm.refl _
  | cons p l ih =>
    rw [List.map_cons, List.nodup_cons] at hnd
    have hp := hnn p (List.mem_cons_self _ _)
    have hn : ¬ (p.1 = HasNull.NULL ∨ p.2 = HasNull.NULL) := by
      rintro (h | h)
      · exact hp.1 h
      · exact hp.2 h
    have ha : StdMap.find s.data_map p.1 = none := habs p (List.mem_cons_self _ _)
    have hstep : putAll (p :: l) s = putAll l ⟨StdMap.insert s.data_map (p.1, p.2)⟩ := by
      show putAll l (BufferMap.put p.1 p.2 s).2 = _
      rw [put_of_absent p.1 p.2 s hn ha]
    have habs2 : ∀ q ∈ l,
        StdMap.find (⟨StdMap.insert s.data_map (p.1, p.2)⟩ : BufferMap K D).data_map q.1
          = none := by
      intro q hq
      have hqp : q.1 ≠ p.1 := by
        intro h
        exact hnd.1 (h ▸ List.mem_map_of_mem Prod.fst hq)
      show StdMap.find (StdMap.insert s.data_map (p.1, p.2)) q.1 = none
      rw [StdMap.find_insert_of_ne s.data_map (p.1, p.2) q.1 hqp]
      exact habs q (List.mem_cons_of_mem _ hq)
    rw [hstep]
    refine (ih _ hnd.2 (fun q hq => hnn q (List.mem_cons_of_mem _ hq)) habs2).trans ?_
    have hins : (StdMap.insert s.data_map (p.1, p.2)).Perm (p :: s.data_map) :=
      StdMap.insert_perm s.data_map p.1 p.2 ha
    exact ((List.Perm.append_left l hins).trans List.perm_middle)

/-- In a key-ordered map every stored element is the one `find` returns for its key. -/
theorem find_of_mem_of_pairwise (m : List (K × D)) (e : K × D)
    (hs : m.Pairwise (fun a b => a.1 < b.1)) (he : e ∈ m) :
    StdMap.find m e.1 = some e := by
  induction m with
  | nil => cases he
  | cons x xs ih =>
    rw [List.pairwise_cons] at hs
    rcases List.mem_cons.1 he with h | h
    · subst h; simp [StdMap.find]
    · have hx : x.1 ≠ e.1 := ne_of_lt (hs.1 e h)
      simp [StdMap.find, hx, ih hs.2 h]

/-- Two key-ordered maps that store the same elements are equal. -/
theorem eq_of_perm_of_pairwise (m1 m2 : List (K × D)) (hp : m1.Perm m2)
    (h1 : m1.Pairwise (fun a b => a.1 < b.1)) (h2 : m2.Pairwise (fun a b => a.1 < b.1)) :
    m1 = m2 := by
  haveI : IsAntisymm (K × D) (fun a b => a.1 < b.1) :=
    ⟨fun a b hab hba => absurd hab (lt_asymm hba)⟩
  exact List.eq_of_perm_of_sorted hp h1 h2

theorem length_put (key : K) (data : D) (s : BufferMap K D) :
    (BufferMap.put key data s).2.data_map.length =
      if (BufferMap.put key data s).1 = .ok () ∧ (BufferMap.contains key s).1 = .ok false
      then s.data_map.length + 1 else s.data_map.length := by
  by_cases hn : key = HasNull.NULL ∨ data = HasNull.NULL
  · rw [put_of_null key data s hn]
    simp
  · by_cases hp : StdMap.find s.data_map key = none
    · have hc : (BufferMap.contains key s).1 = .ok false := (contains_false_iff key s).2 hp
      rw [put_of_absent key data s hn hp, if_pos ⟨rfl, hc⟩]
      exact (StdMap.insert_perm s.data_map key data hp).length_eq
    · have hc : ¬ (BufferMap.contains key s).1 = .ok false :=
        fun h => hp ((contains_false_iff key s).1 h)
      rw [put_of_present key data s hn hp, if_neg (fun h => hc h.2)]

theorem length_le_exec (op : Op K D) (s : BufferMap K D) :
    s.data_map.length ≤ (op.exec s).data_map.length := by
  cases op with
  | put key data =>
    show _ ≤ (BufferMap.put key data s).2.data_map.length
    rw [length_put]
    split
    · exact Nat.le_succ _
    · exact Nat.le_refl _
  | get key =>
    show _ ≤ (BufferMap.get key s).2.data_map.length
    rw [get_state]
  | contains key => exact Nat.le_refl _

theorem length_le_run (ops : List (Op K D)) (s : BufferMap K D) :
    s.data_map.length ≤ (run ops s).data_map.length := by
  induction ops generalizing s with
  | nil => exact Nat.le_refl _
  | cons op ops ih => exact Nat.le_trans (length_le_exec op s) (ih (op.exec s))

/-- The instrumented `put` computes the outcome and the state that `put` computes. -/
theorem put_steps_snd (key : K) (data : D) (s : BufferMap K D) :
    (BufferMap.put_steps key data s).2 = BufferMap.put key data s := by
  by_cases hn : key = HasNull.NULL ∨ data = HasNull.NULL
  · simp only [BufferMap.put_steps, BufferMap.put, if_pos hn]
  · by_cases hp : StdMap.find s.data_map key = none
    · simp only [BufferMap.put_steps, BufferMap.put, if_neg hn, if_pos hp]
    · simp only [BufferMap.put_steps, BufferMap.put, if_neg hn, if_neg hp]

theorem put_steps_of_null (key : K) (data : D) (s : BufferMap K D)
    (h : key = HasNull.NULL ∨ data = HasNull.NULL) :
    (BufferMap.put_steps key data s).1 = [.null_check true] := by
  simp only [BufferMap.put_steps, if_pos h]

theorem put_steps_of_present (key : K) (data : D) (s : BufferMap K D)
    (h : ¬ (key = HasNull.NULL ∨ data = HasNull.NULL))
    (hp : StdMap.find s.data_map key ≠ none) :
    (BufferMap.put_steps key data s).1 = [.null_check false, .find_unlocked false] := by
  simp only [BufferMap.put_steps, if_neg h, if_neg hp]

theorem put_steps_of_absent (key : K) (data : D) (s : BufferMap K D)
    (h : ¬ (key = HasNull.NULL ∨ data = HasNull.NULL))
    (ha : StdMap.find s.data_map key = none) :
    (BufferMap.put_steps key data s).1 =
      [.null_check false, .find_unlocked true, .lock, .find_locked true, .insert,
        .unlock] := by
  simp only [BufferMap.put_steps, if_neg h, if_pos ha]

end Lemmas

/-! ## The contract of `put`, `get` and `contains` -/

section Contract

variable {K D : Type} [LinearOrder K] [DecidableEq D] [HasNull K] [HasNull D]

/-- C1 (read-after-write): in every state in which `key` is absent, for a non-NULL `key` and
a non-NULL `data`, the call `put(key, data)` returns without throwing, and in the state it
leaves `contains(key)` returns true and `get(key)` returns exactly `data`. -/
theorem C1_put_read_after_write (s : BufferMap K D) (key : K) (data : D)
    (hkey : key ≠ HasNull.NULL) (hdata : data ≠ HasNull.NULL)
    (habsent : (BufferMap.contains key s).1 = .ok false) :
    (BufferMap.put key data s).1 = .ok () ∧
      (BufferMap.contains key (BufferMap.put key data s).2).1 = .ok true ∧
      (BufferMap.get key (BufferMap.put key data s).2).1 = .ok data := by
  have hn : ¬ (key = HasNull.NULL ∨ data = HasNull.NULL) := by
    rintro (h | h)
    · exact hkey h
    · exact hdata h
  have ha : StdMap.find s.data_map key = none := (contains_false_iff key s).1 habsent
  have hf : StdMap.find (BufferMap.put key data s).2.data_map key = some (key, data) := by
    rw [put_of_absent key data s hn ha]
    exact StdMap.find_insert_self s.data_map key data ha
  refine ⟨by rw [put_of_absent key data s hn ha], ?_, ?_⟩
  · rw [contains_true_iff, hf]; simp
  · rw [get_of_find_some key _ _ hf]

/-- Witness of C1: the key 3 is absent from the map holding (1, 2); after `put(3, 7)` it is
present with the data 7. -/
theorem C1_put_read_after_write_witness :
    (BufferMap.contains 3 (⟨[(1, 2)]⟩ : BufferMap Nat Nat)).1 = .ok false ∧
      (BufferMap.put 3 7 (⟨[(1, 2)]⟩ : BufferMap Nat Nat)).1 = .ok () ∧
      (BufferMap.contains 3 (BufferMap.put 3 7 (⟨[(1, 2)]⟩ : BufferMap Nat Nat)).2).1
        = .ok true ∧
      (BufferMap.get 3 (BufferMap.put 3 7 (⟨[(1, 2)]⟩ : BufferMap Nat Nat)).2).1 = .ok 7 :=
  ⟨by decide,
    C1_put_read_after_write (⟨[(1, 2)]⟩ : BufferMap Nat Nat) 3 7 (by decide) (by decide)
      (by decide)⟩

/-- C2 (first writer wins): in every state in which `key` is absent, for a non-NULL `key`
and non-NULL data values `v1 ≠ v2`, calling `put(key, v1)` and then `put(key, v2)` leaves
`get(key)` returning `v1` and not `v2`; both calls return without throwing and the second
one changes nothing. -/
theorem C2_put_first_writer_wins (s : BufferMap K D) (key : K) (v1 v2 : D)
    (hkey : key ≠ HasNull.NULL) (hv1 : v1 ≠ HasNull.NULL) (hv2 : v2 ≠ HasNull.NULL)
    (hne : v1 ≠ v2) (habsent : (BufferMap.contains key s).1 = .ok false) :
    (BufferMap.put key v1 s).1 = .ok () ∧
      (BufferMap.put key v2 (BufferMap.put key v1 s).2).1 = .ok () ∧
      (BufferMap.put key v2 (BufferMap.put key v1 s).2).2 = (BufferMap.put key v1 s).2 ∧
      (BufferMap.get key (BufferMap.put key v2 (BufferMap.put key v1 s).2).2).1 = .ok v1 ∧
      (BufferMap.get key (BufferMap.put key v2 (BufferMap.put key v1 s).2).2).1 ≠ .ok v2 := by
  have hn1 : ¬ (key = HasNull.NULL ∨ v1 = HasNull.NULL) := by
    rintro (h | h)
    · exact hkey h
    · exact hv1 h
  have hn2 : ¬ (key = HasNull.NULL ∨ v2 = HasNull.NULL) := by
    rintro (h | h)
    · exact hkey h
    · exact hv2 h
  have ha : StdMap.find s.data_map key = none := (contains_false_iff key s).1 habsent
  have hf : StdMap.find (BufferMap.put key v1 s).2.data_map key = some (key, v1) := by
    rw [put_of_absent key v1 s hn1 ha]
    exact StdMap.find_insert_self s.data_map key v1 ha
  have h2 : BufferMap.put key v2 (BufferMap.put key v1 s).2
      = (.ok (), (BufferMap.put key v1 s).2) :=
    put_of_present key v2 _ hn2 (by rw [hf]; simp)
  have hg : (BufferMap.get key (BufferMap.put key v1 s).2).1 = .ok v1 := by
    rw [get_of_find_some key _ _ hf]
  refine ⟨by rw [put_of_absent key v1 s hn1 ha], by rw [h2], by rw [h2], ?_, ?_⟩
  · rw [h2]; exact hg
  · rw [h2, hg]
    intro h
    exact hne (Except.ok.inj h)

/-- Witness of C2: on the newly constructed map, `put(3, 7)` followed by `put(3, 9)` leaves
`get(3)` returning 7. -/
theorem C2_put_first_writer_wins_witness :
    (BufferMap.contains 3 (BufferMap.new : BufferMap Nat Nat)).1 = .ok false ∧
      (BufferMap.get 3 (BufferMap.put 3 9 (BufferMap.put 3 7
        (BufferMap.new : BufferMap Nat Nat)).2).2).1 = .ok 7 :=
  ⟨by decide,
    (C2_put_first_writer_wins (BufferMap.new : BufferMap Nat Nat) 3 7 9 (by decide)
      (by decide) (by decide) (by decide) (by decide)).2.2.2.1⟩

/-- C3 (exact membership): after any finite sequence `l` of `put` calls on a newly
constructed object, `contains(key)` returns true if and only if `key` was the key of some
call of the sequence that returned without throwing, which are the calls whose key and data
are both non-NULL; for every other key `get` throws `std::out_of_range`; and on the newly
constructed object `contains` returns false for every key. -/
theorem C3_contains_exactly_inserted (l : List (K × D)) (key : K) :
    ((BufferMap.contains key (putAll l BufferMap.new)).1 = .ok true ↔ InsertedBy l key) ∧
      (InsertedBy l key ↔
        ∃ p ∈ l, p.1 = key ∧ p.1 ≠ HasNull.NULL ∧ p.2 ≠ HasNull.NULL) ∧
      (¬ InsertedBy l key →
        (BufferMap.get key (putAll l BufferMap.new)).1 = .error .out_of_range) ∧
      (BufferMap.contains key (BufferMap.new : BufferMap K D)).1 = .ok false := by
  have hmem : StdMap.find (putAll l (BufferMap.new : BufferMap K D)).data_map key ≠ none ↔
      InsertedBy l key := by
    rw [find_putAll_ne_none_iff, insertedBy_iff]
    simp [BufferMap.new, StdMap.find]
  refine ⟨?_, insertedBy_iff l key, ?_, ?_⟩
  · rw [contains_true_iff, hmem]
  · intro h
    have hnone : StdMap.find (putAll l (BufferMap.new : BufferMap K D)).data_map key = none :=
      not_not.1 (fun hne => h (hmem.1 hne))
    rw [get_of_find_none key _ hnone]
  · rw [contains_false_iff]; rfl

/-- Witness of C3: after `put(3, 7)`, `put(0, 1)` (which throws) and `put(4, 0)` (which
throws), the key 4 was not inserted and `get(4)` throws `std::out_of_range`. -/
theorem C3_contains_exactly_inserted_witness :
    ¬ InsertedBy [((3 : Nat), (7 : Nat)), (0, 1), (4, 0)] 4 ∧
      (BufferMap.get 4 (putAll [((3 : Nat), (7 : Nat)), (0, 1), (4, 0)] BufferMap.new)).1
        = .error .out_of_range :=
  have hnot : ¬ InsertedBy [((3 : Nat), (7 : Nat)), (0, 1), (4, 0)] 4 := fun h =>
    absurd ((C3_contains_exactly_inserted [((3 : Nat), (7 : Nat)), (0, 1), (4, 0)] 4).1.2 h)
      (by decide)
  ⟨hnot, (C3_contains_exactly_inserted [((3 : Nat), (7 : Nat)), (0, 1), (4, 0)] 4).2.2.1 hnot⟩

/-- C4 (invalid input is rejected atomically): in every state, whether or not `key` is
present, `put(key, data)` throws the string literal "Key or Data is Null!" if and only if
`key` is NULL or `data` is NULL, and otherwise returns; it throws nothing else; and whenever
it throws, the state is exactly the state before the call, so `contains` and `get` answer
the same for every key. -/
theorem C4_put_rejects_null (s : BufferMap K D) (key : K) (data : D) :
    ((BufferMap.put key data s).1 = .error (.c_string "Key or Data is Null!") ↔
        key = HasNull.NULL ∨ data = HasNull.NULL) ∧
      ((BufferMap.put key data s).1 = .ok () ↔
        ¬ (key = HasNull.NULL ∨ data = HasNull.NULL)) ∧
      (∀ e, (BufferMap.put key data s).1 = .error e →
        e = .c_string "Key or Data is Null!" ∧
        (BufferMap.put key data s).2 = s ∧
        ∀ key2, BufferMap.contains key2 (BufferMap.put key data s).2
            = BufferMap.contains key2 s ∧
          BufferMap.get key2 (BufferMap.put key data s).2 = BufferMap.get key2 s) := by
  by_cases hn : key = HasNull.NULL ∨ data = HasNull.NULL
  · rw [put_of_null key data s hn]
    refine ⟨by simp [hn], by simp [hn], ?_⟩
    intro e he
    refine ⟨(Except.error.inj he).symm, rfl, fun key2 => ⟨rfl, rfl⟩⟩
  · have hok : (BufferMap.put key data s).1 = .ok () :=
      (put_ok_iff key data s).2 (not_or.1 hn)
    rw [hok]
    refine ⟨by simp [hn], by simp [hn], ?_⟩
    intro e he
    cases he

/-- Witness of C4: on a map in which the key 3 is present, `put(3, NULL)` throws and leaves
the map as it was. -/
theorem C4_put_rejects_null_witness :
    (BufferMap.put 3 0 (⟨[(3, 7)]⟩ : BufferMap Nat Nat)).1
        = .error (.c_string "Key or Data is Null!") ∧
      (BufferMap.put 3 0 (⟨[(3, 7)]⟩ : BufferMap Nat Nat)).2 = ⟨[(3, 7)]⟩ :=
  ⟨by decide,
    ((C4_put_rejects_null (⟨[(3, 7)]⟩ : BufferMap Nat Nat) 3 0).2.2
      (.c_string "Key or Data is Null!") (by decide)).2.1⟩

/-- C5 (get fails exactly on absence): in every state, `get(key)` throws `std::out_of_range`
if and only if `contains(key)` returns false, and it throws nothing else; when
`contains(key)` returns true, `get(key)` returns a data value stored under `key`, which in a
reachable state is not NULL; so in no state does `contains(key)` return true while
`get(key)` throws. -/
theorem C5_get_fails_exactly_on_absence (s : BufferMap K D) (key : K) :
    ((BufferMap.get key s).1 = .error .out_of_range ↔
        (BufferMap.contains key s).1 = .ok false) ∧
      (∀ e, (BufferMap.get key s).1 = .error e → e = .out_of_range) ∧
      ((BufferMap.contains key s).1 = .ok true →
        ∃ v, (BufferMap.get key s).1 = .ok v ∧ (key, v) ∈ s.data_map ∧
          (Reachable s → v ≠ HasNull.NULL)) ∧
      ¬ ((BufferMap.contains key s).1 = .ok true ∧
        ∃ e, (BufferMap.get key s).1 = .error e) := by
  cases hf : StdMap.find s.data_map key with
  | none =>
    have hc : (BufferMap.contains key s).1 = .ok false := (contains_false_iff key s).2 hf
    rw [get_of_find_none key s hf, hc]
    refine ⟨by simp, ?_, by simp, by simp⟩
    intro e he
    exact (Except.error.inj he).symm
  | some x =>
    have hc : (BufferMap.contains key s).1 = .ok true :=
      (contains_true_iff key s).2 (by rw [hf]; simp)
    obtain ⟨hx, hk⟩ := StdMap.find_eq_some s.data_map key x hf
    rw [get_of_find_some key s x hf, hc]
    refine ⟨by simp, by simp, ?_, by simp⟩
    intro _
    refine ⟨x.2, rfl, ?_, ?_⟩
    · rw [← hk]; exact hx
    · intro hr
      exact (hr.wellFormed.2 x hx).2

/-- Witness of C5: after `put(3, 7)` on a newly constructed object `contains(3)` returns
true and `get(3)` returns a value stored under 3 that is not NULL. -/
theorem C5_get_fails_exactly_on_absence_witness :
    (BufferMap.contains 3 (⟨[(3, 7)]⟩ : BufferMap Nat Nat)).1 = .ok true ∧
      Reachable (⟨[(3, 7)]⟩ : BufferMap Nat Nat) ∧
      ∃ v, (BufferMap.get 3 (⟨[(3, 7)]⟩ : BufferMap Nat Nat)).1 = .ok v ∧
        (3, v) ∈ [((3 : Nat), (7 : Nat))] ∧ v ≠ HasNull.NULL :=
  have hr : Reachable (⟨[(3, 7)]⟩ : BufferMap Nat Nat) := ⟨[Op.put 3 7], by decide⟩
  ⟨by decide, hr,
    match (C5_get_fails_exactly_on_absence (⟨[(3, 7)]⟩ : BufferMap Nat Nat) 3).2.2.1
      (by decide) with
    | ⟨v, hv, hm, hnull⟩ => ⟨v, hv, hm, hnull hr⟩⟩

/-- C6 (put on an existing key is a successful no-op): in every reachable state in which
`key` is present, for every non-NULL `data` (equal to the stored data or not), the call
`put(key, data)` returns without throwing and leaves the state identical to the state
before the call. -/
theorem C6_put_existing_is_noop (s : BufferMap K D) (key : K) (data : D)
    (hs : Reachable s) (hpresent : (BufferMap.contains key s).1 = .ok true)
    (hdata : data ≠ HasNull.NULL) :
    (BufferMap.put key data s).1 = .ok () ∧ (BufferMap.put key data s).2 = s := by
  have hp : StdMap.find s.data_map key ≠ none := (contains_true_iff key s).1 hpresent
  have hkey : key ≠ HasNull.NULL := by
    intro hk
    rw [hk] at hp
    exact hp hs.wellFormed.find_null
  have hn : ¬ (key = HasNull.NULL ∨ data = HasNull.NULL) := by
    rintro (h | h)
    · exact hkey h
    · exact hdata h
  rw [put_of_present key data s hn hp]
  exact ⟨rfl, rfl⟩

/-- Witness of C6: in the state reached by `put(3, 7)`, the call `put(3, 9)` returns and
leaves the state as it was. -/
theorem C6_put_existing_is_noop_witness :
    Reachable (⟨[(3, 7)]⟩ : BufferMap Nat Nat) ∧
      (BufferMap.put 3 9 (⟨[(3, 7)]⟩ : BufferMap Nat Nat)).1 = .ok () ∧
      (BufferMap.put 3 9 (⟨[(3, 7)]⟩ : BufferMap Nat Nat)).2 = ⟨[(3, 7)]⟩ :=
  have hr : Reachable (⟨[(3, 7)]⟩ : BufferMap Nat Nat) := ⟨[Op.put 3 7], by decide⟩
  ⟨hr, C6_put_existing_is_noop (⟨[(3, 7)]⟩ : BufferMap Nat Nat) 3 9 hr (by decide)
    (by decide)⟩

/-- C7 (write-once per key): in every state in which `key` is present with the data `v`,
that is, in which `get(key)` returns `v`, after every finite sequence of further calls (`put` with any arguments, throwing or not,
`get`, `contains`) `key` is still present and `get(key)` still returns `v`. -/
theorem C7_write_once (s : BufferMap K D) (key : K) (v : D) (ops : List (Op K D))
    (hvalue : (BufferMap.get key s).1 = .ok v) :
    (BufferMap.contains key (run ops s)).1 = .ok true ∧
      (BufferMap.get key (run ops s)).1 = .ok v := by
  obtain ⟨e, he, hv⟩ := (get_ok_iff key s v).1 hvalue
  have hrun := find_run_of_some ops key s e he
  refine ⟨?_, ?_⟩
  · rw [contains_true_iff, hrun]; simp
  · rw [get_of_find_some key _ e hrun, hv]

/-- Witness of C7: the key 3 holds 7; after `put(3, 9)`, `put(0, 1)` (which throws),
`get(5)` (which throws), `contains(3)` and `put(1, 2)` it still holds 7. -/
theorem C7_write_once_witness :
    (BufferMap.contains 3 (⟨[(3, 7)]⟩ : BufferMap Nat Nat)).1 = .ok true ∧
      (BufferMap.get 3 (⟨[(3, 7)]⟩ : BufferMap Nat Nat)).1 = .ok 7 ∧
      (BufferMap.get 3 (run [Op.put 3 9, Op.put 0 1, Op.get 5, Op.contains 3, Op.put 1 2]
        (⟨[(3, 7)]⟩ : BufferMap Nat Nat))).1 = .ok 7 :=
  ⟨by decide, by decide,
    (C7_write_once (⟨[(3, 7)]⟩ : BufferMap Nat Nat) 3 7
      [Op.put 3 9, Op.put 0 1, Op.get 5, Op.contains 3, Op.put 1 2] (by decide)).2⟩

/-- C8 (reads are pure): in every state and for every key, NULL included, `contains(key)`
returns a boolean without throwing and leaves the state unchanged; `get(key)`, whether it
returns or throws, leaves the state unchanged; and a call that changes the state is a call
of `put`. -/
theorem C8_reads_are_pure (s : BufferMap K D) (key : K) :
    (∃ b, (BufferMap.contains key s).1 = .ok b) ∧
      (∃ b, (BufferMap.contains (HasNull.NULL : K) s).1 = .ok b) ∧
      (BufferMap.contains key s).2 = s ∧
      (BufferMap.get key s).2 = s ∧
      (∀ op : Op K D, op.exec s ≠ s → ∃ k d, op = Op.put k d) := by
  refine ⟨⟨_, rfl⟩, ⟨_, rfl⟩, rfl, get_state key s, ?_⟩
  intro op hop
  cases op with
  | put k d => exact ⟨k, d, rfl⟩
  | get k => exact absurd (get_state k s) hop
  | contains k => exact absurd rfl hop

/-- Witness of C8: on a newly constructed object the call `put(3, 7)` changes the state, and
it is a call of `put`. -/
theorem C8_reads_are_pure_witness :
    (Op.put 3 7 : Op Nat Nat).exec BufferMap.new ≠ BufferMap.new ∧
      ∃ k d, (Op.put 3 7 : Op Nat Nat) = Op.put k d :=
  ⟨by decide,
    (C8_reads_are_pure (BufferMap.new : BufferMap Nat Nat) 0).2.2.2.2 (Op.put 3 7)
      (by decide)⟩

/-- C9 (distinct-key inserts are order-independent and complete): for every finite list `l`
of pairs with pairwise distinct non-NULL keys and non-NULL data, and every permutation `l2`
of it, one `put` per pair of `l2` on a newly constructed object (each of which returns
without throwing) yields a state in which every key of `l` is present and `get` returns the
data paired with it; and this final state is the same as for the order `l`, hence the same
for every order. -/
theorem C9_distinct_key_puts_any_order (l l2 : List (K × D)) (hperm : l2.Perm l)
    (hnd : (l.map Prod.fst).Nodup)
    (hnn : ∀ p ∈ l, p.1 ≠ HasNull.NULL ∧ p.2 ≠ HasNull.NULL) :
    putAll l2 (BufferMap.new : BufferMap K D) = putAll l BufferMap.new ∧
      (∀ p ∈ l2, ∀ s : BufferMap K D, (BufferMap.put p.1 p.2 s).1 = .ok ()) ∧
      ∀ p ∈ l, (BufferMap.contains p.1 (putAll l2 BufferMap.new)).1 = .ok true ∧
        (BufferMap.get p.1 (putAll l2 BufferMap.new)).1 = .ok p.2 := by
  have hnd2 : (l2.map Prod.fst).Nodup := (hperm.map Prod.fst).nodup_iff.2 hnd
  have hnn2 : ∀ p ∈ l2, p.1 ≠ HasNull.NULL ∧ p.2 ≠ HasNull.NULL :=
    fun p hp => hnn p (hperm.mem_iff.1 hp)
  have hstored : ∀ m : List (K × D), (m.map Prod.fst).Nodup →
      (∀ p ∈ m, p.1 ≠ HasNull.NULL ∧ p.2 ≠ HasNull.NULL) →
      (putAll m (BufferMap.new : BufferMap K D)).data_map.Perm m := by
    intro m hm1 hm2
    have := putAll_perm m (BufferMap.new : BufferMap K D) hm1 hm2 (fun _ _ => rfl)
    simpa [BufferMap.new] using this
  have hwf : ∀ m : List (K × D), WellFormed (putAll m (BufferMap.new : BufferMap K D)) :=
    fun m => wellFormed_putAll m _ wellFormed_new
  have hp2 := hstored l2 hnd2 hnn2
  have hp1 := hstored l hnd hnn
  have heq : (putAll l2 (BufferMap.new : BufferMap K D)).data_map
      = (putAll l BufferMap.new).data_map :=
    eq_of_perm_of_pairwise _ _ ((hp2.trans hperm).trans hp1.symm) (hwf l2).1 (hwf l).1
  refine ⟨?_, fun p hp s => (put_ok_iff p.1 p.2 s).2 (hnn2 p hp), ?_⟩
  · cases h1 : putAll l2 (BufferMap.new : BufferMap K D)
    cases h2 : putAll l (BufferMap.new : BufferMap K D)
    rw [h1, h2] at heq
    exact congrArg BufferMap.mk heq
  · intro p hp
    have hmem : p ∈ (putAll l2 (BufferMap.new : BufferMap K D)).data_map :=
      hp2.mem_iff.2 (hperm.mem_iff.2 hp)
    have hfind := find_of_mem_of_pairwise _ p (hwf l2).1 hmem
    refine ⟨?_, ?_⟩
    · rw [contains_true_iff, hfind]; simp
    · rw [get_of_find_some p.1 _ p hfind]

/-- Witness of C9: the pairs (3, 7), (1, 2), (5, 1) put in the order (5, 1), (3, 7), (1, 2)
give the same map as in the order of the list, in which `get(1)` returns 2. -/
theorem C9_distinct_key_puts_any_order_witness :
    putAll [((5 : Nat), (1 : Nat)), (3, 7), (1, 2)] BufferMap.new
        = putAll [((3 : Nat), (7 : Nat)), (1, 2), (5, 1)] BufferMap.new ∧
      (BufferMap.get 1 (putAll [((5 : Nat), (1 : Nat)), (3, 7), (1, 2)]
        BufferMap.new)).1 = .ok 2 :=
  have h := C9_distinct_key_puts_any_order [((3 : Nat), (7 : Nat)), (1, 2), (5, 1)]
    [(5, 1), (3, 7), (1, 2)] (by decide) (by decide) (by decide)
  ⟨h.1, (h.2.2 (1, 2) (by decide)).2⟩

/-- C10 (the two failure kinds are never conflated): what `put` throws for a NULL key or
data (the string literal) differs from what `get` throws for a missing key
(`std::out_of_range`); for every input `put` throws nothing but the string literal, so never
`std::out_of_range`, and `get` throws nothing but `std::out_of_range`, so never a string
literal; and in every reachable state `get(NULL)` throws `std::out_of_range`. -/
theorem C10_failure_kinds_distinct (s : BufferMap K D) (key : K) (data : D) :
    (∀ what, Exception.c_string what ≠ Exception.out_of_range) ∧
      (∀ e, (BufferMap.put key data s).1 = .error e →
        e = .c_string "Key or Data is Null!") ∧
      (BufferMap.put key data s).1 ≠ .error .out_of_range ∧
      (∀ e, (BufferMap.get key s).1 = .error e → e = .out_of_range) ∧
      (∀ what, (BufferMap.get key s).1 ≠ .error (.c_string what)) ∧
      (Reachable s → (BufferMap.get (HasNull.NULL : K) s).1 = .error .out_of_range) := by
  have hput : ∀ e, (BufferMap.put key data s).1 = .error e →
      e = .c_string "Key or Data is Null!" := by
    intro e he
    by_cases hn : key = HasNull.NULL ∨ data = HasNull.NULL
    · rw [put_of_null key data s hn] at he
      exact (Except.error.inj he).symm
    · rw [(put_ok_iff key data s).2 (not_or.1 hn)] at he
      cases he
  refine ⟨fun what h => Exception.noConfusion h, hput, ?_, get_error key s, ?_, ?_⟩
  · intro h
    cases hput _ h
  · intro what h
    cases get_error key s _ h
  · intro hr
    rw [get_of_find_none _ s hr.wellFormed.find_null]

/-- Witness of C10: in the state reached by `put(3, 7)`, `get(NULL)` throws
`std::out_of_range`, while `put(NULL, 7)` throws the string literal. -/
theorem C10_failure_kinds_distinct_witness :
    Reachable (⟨[(3, 7)]⟩ : BufferMap Nat Nat) ∧
      (BufferMap.get (HasNull.NULL : Nat) (⟨[(3, 7)]⟩ : BufferMap Nat Nat)).1
        = .error .out_of_range ∧
      (BufferMap.put (HasNull.NULL : Nat) 7 (⟨[(3, 7)]⟩ : BufferMap Nat Nat)).1
        = .error (.c_string "Key or Data is Null!") :=
  have hr : Reachable (⟨[(3, 7)]⟩ : BufferMap Nat Nat) := ⟨[Op.put 3 7], by decide⟩
  ⟨hr, (C10_failure_kinds_distinct (⟨[(3, 7)]⟩ : BufferMap Nat Nat) 0 7).2.2.2.2.2 hr,
    by decide⟩

/-- C12 (no NULL is ever stored): in every state reachable from a newly constructed object
by a finite sequence of `put`, `get` and `contains` calls, every stored element has a
non-NULL key and a non-NULL data value; so `contains(NULL)` returns false and a `get` that
returns never returns NULL. -/
theorem C12_no_null_stored (s : BufferMap K D) (hs : Reachable s) :
    (∀ e ∈ s.data_map, e.1 ≠ HasNull.NULL ∧ e.2 ≠ HasNull.NULL) ∧
      (BufferMap.contains (HasNull.NULL : K) s).1 = .ok false ∧
      (∀ key v, (BufferMap.get key s).1 = .ok v → v ≠ HasNull.NULL) := by
  have hwf := hs.wellFormed
  refine ⟨hwf.2, (contains_false_iff _ s).2 hwf.find_null, ?_⟩
  intro key v hv
  obtain ⟨e, he, hev⟩ := (get_ok_iff key s v).1 hv
  rw [← hev]
  exact (hwf.2 e (StdMap.find_eq_some s.data_map key e he).1).2

/-- Witness of C12: the state reached by `put(3, 7)`, `put(0, 5)`, `put(4, 0)`, `get(3)`
and `put(1, 2)` stores no NULL and `contains(NULL)` returns false in it. -/
theorem C12_no_null_stored_witness :
    Reachable (⟨[(1, 2), (3, 7)]⟩ : BufferMap Nat Nat) ∧
      (∀ e ∈ [((1 : Nat), (2 : Nat)), (3, 7)], e.1 ≠ HasNull.NULL ∧ e.2 ≠ HasNull.NULL) ∧
      (BufferMap.contains (HasNull.NULL : Nat) (⟨[(1, 2), (3, 7)]⟩ : BufferMap Nat Nat)).1
        = .ok false :=
  have hr : Reachable (⟨[(1, 2), (3, 7)]⟩ : BufferMap Nat Nat) :=
    ⟨[Op.put 3 7, Op.put 0 5, Op.put 4 0, Op.get 3, Op.put 1 2], by decide⟩
  have h := C12_no_null_stored (⟨[(1, 2), (3, 7)]⟩ : BufferMap Nat Nat) hr
  ⟨hr, h.1, h.2.1⟩

/-- C13 (monotone growth by exactly one): in every state, after a call `put(key, data)` the
number of stored elements is the number before plus one if the call returned and `key` was
absent, and the number before otherwise (`key` present, or the call threw); no call and no
finite sequence of calls decreases the number of stored elements; and a newly constructed
object stores none. -/
theorem C13_size_grows_by_one (s : BufferMap K D) (key : K) (data : D) :
    ((BufferMap.put key data s).1 = .ok () ∧ (BufferMap.contains key s).1 = .ok false →
        (BufferMap.put key data s).2.data_map.length = s.data_map.length + 1) ∧
      (¬ ((BufferMap.put key data s).1 = .ok () ∧ (BufferMap.contains key s).1 = .ok false) →
        (BufferMap.put key data s).2.data_map.length = s.data_map.length) ∧
      (∀ op : Op K D, s.data_map.length ≤ (op.exec s).data_map.length) ∧
      (∀ ops : List (Op K D), s.data_map.length ≤ (run ops s).data_map.length) ∧
      (BufferMap.new : BufferMap K D).data_map.length = 0 := by
  refine ⟨?_, ?_, fun op => length_le_exec op s, fun ops => length_le_run ops s, rfl⟩
  · intro h
    rw [length_put, if_pos h]
  · intro h
    rw [length_put, if_neg h]

/-- Witness of C13: on the map holding (1, 2), `put(3, 7)` returns with 3 absent and the map
then holds two elements, while `put(1, 9)`, whose key is present, leaves it at one. -/
theorem C13_size_grows_by_one_witness :
    (BufferMap.put 3 7 (⟨[(1, 2)]⟩ : BufferMap Nat Nat)).2.data_map.length = 1 + 1 ∧
      (BufferMap.put 1 9 (⟨[(1, 2)]⟩ : BufferMap Nat Nat)).2.data_map.length = 1 :=
  ⟨(C13_size_grows_by_one (⟨[(1, 2)]⟩ : BufferMap Nat Nat) 3 7).1 (by decide),
    (C13_size_grows_by_one (⟨[(1, 2)]⟩ : BufferMap Nat Nat) 1 9).2.1 (by decide)⟩

/-- C14 (key uniqueness is an invariant): in every state reachable from a newly constructed
object by a finite sequence of calls, no two stored elements share a key: the keys of
`data_map` are pairwise different, two stored elements with the same key are the same
element, and a key is mapped to at most one data value. -/
theorem C14_keys_unique (s : BufferMap K D) (hs : Reachable s) :
    (s.data_map.map Prod.fst).Nodup ∧
      (∀ e1 ∈ s.data_map, ∀ e2 ∈ s.data_map, e1.1 = e2.1 → e1 = e2) ∧
      (∀ key v1 v2, (key, v1) ∈ s.data_map → (key, v2) ∈ s.data_map → v1 = v2) := by
  have hsorted := hs.wellFormed.1
  have huniq : ∀ e1 ∈ s.data_map, ∀ e2 ∈ s.data_map, e1.1 = e2.1 → e1 = e2 := by
    intro e1 h1 e2 h2 hk
    have f1 := find_of_mem_of_pairwise s.data_map e1 hsorted h1
    have f2 := find_of_mem_of_pairwise s.data_map e2 hsorted h2
    rw [hk, f2] at f1
    exact (Option.some.inj f1).symm
  refine ⟨?_, huniq, ?_⟩
  · rw [List.Nodup, List.pairwise_map]
    exact hsorted.imp (fun h => ne_of_lt h)
  · intro key v1 v2 h1 h2
    exact congrArg Prod.snd (huniq _ h1 _ h2 rfl)

/-- Witness of C14: in the state reached by `put(3, 7)`, `put(1, 2)`, `put(3, 9)` and
`put(1, 5)` the stored keys 1 and 3 are different. -/
theorem C14_keys_unique_witness :
    Reachable (⟨[(1, 2), (3, 7)]⟩ : BufferMap Nat Nat) ∧
      ([((1 : Nat), (2 : Nat)), (3, 7)].map Prod.fst).Nodup :=
  have hr : Reachable (⟨[(1, 2), (3, 7)]⟩ : BufferMap Nat Nat) :=
    ⟨[Op.put 3 7, Op.put 1 2, Op.put 3 9, Op.put 1 5], by decide⟩
  ⟨hr, (C14_keys_unique (⟨[(1, 2), (3, 7)]⟩ : BufferMap Nat Nat) hr).1⟩

/-- C15 (lock-free fast path): a call `put(key, data)` on a state in which `key` is present
does not acquire `put_mutex`, and in a reachable state with a non-NULL `data` it returns
after the null test and the first presence test alone; `put` acquires the mutex exactly when
its first, unlocked presence test finds `key` absent, and then once; the mutex is not held
when `put` returns or throws; a `put` that throws does not acquire it; and `get` and
`contains` never acquire it. -/
theorem C15_lock_free_fast_path (s : BufferMap K D) (key : K) (data : D) :
    ((BufferMap.contains key s).1 = .ok true →
        BufferMap.Step.lock ∉ (BufferMap.put_steps key data s).1 ∧
        (Op.put key data).acquisitions s = 0) ∧
      (Reachable s → (BufferMap.contains key s).1 = .ok true → data ≠ HasNull.NULL →
        (BufferMap.put_steps key data s).2.1 = .ok () ∧
        (BufferMap.put_steps key data s).1 = [.null_check false, .find_unlocked false]) ∧
      (BufferMap.Step.lock ∈ (BufferMap.put_steps key data s).1 ↔
        BufferMap.Step.find_unlocked true ∈ (BufferMap.put_steps key data s).1) ∧
      (BufferMap.Step.lock ∈ (BufferMap.put_steps key data s).1 →
        (BufferMap.contains key s).1 = .ok false) ∧
      (Op.put key data).acquisitions s ≤ 1 ∧
      BufferMap.heldAfter (BufferMap.put_steps key data s).1 = false ∧
      (∀ e, (BufferMap.put_steps key data s).2.1 = .error e →
        BufferMap.Step.lock ∉ (BufferMap.put_steps key data s).1) ∧
      (Op.get key : Op K D).acquisitions s = 0 ∧
      (Op.contains key : Op K D).acquisitions s = 0 := by
  by_cases hn : key = HasNull.NULL ∨ data = HasNull.NULL
  · have hst := put_steps_of_null key data s hn
    refine ⟨?_, ?_, ?_, ?_, ?_, ?_, ?_, rfl, rfl⟩
    · intro _
      simp [Op.acquisitions, hst]
    · intro hr hc hd
      have hp : StdMap.find s.data_map key ≠ none := (contains_true_iff key s).1 hc
      rcases hn with hk | hk
      · rw [hk] at hp
        exact absurd hr.wellFormed.find_null hp
      · exact absurd hk hd
    · simp [hst]
    · simp [hst]
    · simp [Op.acquisitions, hst]
    · simp [hst, BufferMap.heldAfter, BufferMap.Step.held]
    · intro _ _
      simp [hst]
  · by_cases hp : StdMap.find s.data_map key = none
    · have hst := put_steps_of_absent key data s hn hp
      have hc : (BufferMap.contains key s).1 = .ok false := (contains_false_iff key s).2 hp
      refine ⟨?_, ?_, ?_, ?_, ?_, ?_, ?_, rfl, rfl⟩
      · intro h
        rw [hc] at h
        cases h
      · intro _ h
        rw [hc] at h
        cases h
      · simp [hst]
      · intro _
        exact hc
      · simp [Op.acquisitions, hst]
      · simp [hst, BufferMap.heldAfter, BufferMap.Step.held]
      · intro e he
        rw [put_steps_snd, put_of_absent key data s hn hp] at he
        cases he
    · have hst := put_steps_of_present key data s hn hp
      refine ⟨?_, ?_, ?_, ?_, ?_, ?_, ?_, rfl, rfl⟩
      · intro _
        simp [Op.acquisitions, hst]
      · intro _ _ _
        refine ⟨?_, hst⟩
        rw [put_steps_snd, put_of_present key data s hn hp]
      · simp [hst]
      · simp [hst]
      · simp [Op.acquisitions, hst]
      · simp [hst, BufferMap.heldAfter, BufferMap.Step.held]
      · intro _ _
        simp [hst]

/-- Witness of C15: in the state reached by `put(3, 7)` the call `put(3, 9)` executes the
null test and the first presence test only, and acquires `put_mutex` zero times. -/
theorem C15_lock_free_fast_path_witness :
    Reachable (⟨[(3, 7)]⟩ : BufferMap Nat Nat) ∧
      (BufferMap.contains 3 (⟨[(3, 7)]⟩ : BufferMap Nat Nat)).1 = .ok true ∧
      (BufferMap.put_steps 3 9 (⟨[(3, 7)]⟩ : BufferMap Nat Nat)).1
        = [.null_check false, .find_unlocked false] ∧
      (Op.put 3 9 : Op Nat Nat).acquisitions ⟨[(3, 7)]⟩ = 0 :=
  have hr : Reachable (⟨[(3, 7)]⟩ : BufferMap Nat Nat) := ⟨[Op.put 3 7], by decide⟩
  have h := C15_lock_free_fast_path (⟨[(3, 7)]⟩ : BufferMap Nat Nat) 3 9
  ⟨hr, by decide, (h.2.1 hr (by decide) (by decide)).2, (h.1 (by decide)).2⟩

/-- C16 (double-checked insertion refines insert-if-absent): in sequential execution, in
every state and for every non-NULL key and data, `put` with its two presence tests, and its
statement-by-statement form, give the same outcome and the same state as the single-check
reference "if the key is absent insert the pair, otherwise do nothing"; and for no input
does a call execute the second presence test with the result that the key is present. -/
theorem C16_double_check_refines_single_check (s : BufferMap K D) (key : K) (data : D) :
    (key ≠ HasNull.NULL → data ≠ HasNull.NULL →
        BufferMap.put key data s = BufferMap.put_insert_if_absent key data s ∧
        (BufferMap.put_steps key data s).2 = BufferMap.put_insert_if_absent key data s) ∧
      BufferMap.Step.find_locked false ∉ (BufferMap.put_steps key data s).1 := by
  constructor
  · intro hkey hdata
    have hn : ¬ (key = HasNull.NULL ∨ data = HasNull.NULL) := by
      rintro (h | h)
      · exact hkey h
      · exact hdata h
    have h : BufferMap.put key data s = BufferMap.put_insert_if_absent key data s := by
      by_cases hp : StdMap.find s.data_map key = none
      · rw [put_of_absent key data s hn hp]
        simp only [BufferMap.put_insert_if_absent, if_pos hp]
      · rw [put_of_present key data s hn hp]
        simp only [BufferMap.put_insert_if_absent, if_neg hp]
    exact ⟨h, by rw [put_steps_snd, h]⟩
  · by_cases hn : key = HasNull.NULL ∨ data = HasNull.NULL
    · simp [put_steps_of_null key data s hn]
    · by_cases hp : StdMap.find s.data_map key = none
      · simp [put_steps_of_absent key data s hn hp]
      · simp [put_steps_of_present key data s hn hp]

/-- Witness of C16: on the map holding (1, 2), `put(3, 7)` and the single-check reference
both return and leave the map holding (1, 2) and (3, 7). -/
theorem C16_double_check_refines_single_check_witness :
    BufferMap.put 3 7 (⟨[(1, 2)]⟩ : BufferMap Nat Nat)
        = BufferMap.put_insert_if_absent 3 7 ⟨[(1, 2)]⟩ ∧
      BufferMap.put_insert_if_absent 3 7 (⟨[(1, 2)]⟩ : BufferMap Nat Nat)
        = (.ok (), ⟨[(1, 2), (3, 7)]⟩) :=
  ⟨((C16_double_check_refines_single_check (⟨[(1, 2)]⟩ : BufferMap Nat Nat) 3 7).1
    (by decide) (by decide)).1, by decide⟩

end Contract

end traffic_manager
